import Mathlib

/-!
Verification of the Simple Banking System (src/banking.py, src/database.py).

The development shallowly embeds the program:

* the Luhn-style checksum generation (`Account._get_account_num`) and
  validation (`is_card_number_valid`) work on strings of decimal digits;
  digits are `Nat`, strings are Lean `String`; Python code that would raise
  an exception (`int()` on a non-digit character, indexing an empty string)
  is modelled by `Option`, with `none` for the raising executions;
* the SQLite table `card` is a list of rows (`Card`); the SQL statements of
  database.py become list transformations (`UPDATE ... WHERE number = ?` maps
  over the rows matching the number, `DELETE` filters them out,
  `SELECT ... WHERE number = ?` + `fetchall` filters);
* the interactive session (`Account.menu`) becomes a step function over the
  menu actions, each action carrying the values the Python reads from
  standard input (income, receiver number, transfer amount).
-/

/-! ## Identity service: Luhn-style checksum -/

/-- Doubling rule applied to a digit sitting at an odd (1-indexed) position:
double it and subtract 9 when the doubled value exceeds 9
(banking.py lines 124-129 and 243-248). -/
def luhnDouble (d : Nat) : Nat :=
  if d * 2 > 9 then d * 2 - 9 else d * 2

/-- Transform of `enumerate(num, start=i)`: the digit at 1-indexed position
`i`, `i+1`, ... is doubled when that position is odd, kept otherwise. -/
def luhnTransformFrom : Nat → List Nat → List Nat
  | _, [] => []
  | i, d :: ds =>
      (if i % 2 = 1 then luhnDouble d else d) :: luhnTransformFrom (i + 1) ds

/-- Transform of `enumerate(num, start=1)` over a whole digit list. -/
def luhnTransform (ds : List Nat) : List Nat :=
  luhnTransformFrom 1 ds

/-- Python `int(c)` on a single character: the digit value for an ASCII
decimal digit, `none` (a raised `ValueError`) otherwise. -/
def charToDigit (c : Char) : Option Nat :=
  if c.isDigit then some (c.toNat - 48) else none

/-- Character of a digit `d ≤ 9`, as produced by Python `str(d)`. -/
def digitToChar (d : Nat) : Char :=
  Char.ofNat (48 + d)

/-- Digit values of a character list; `none` when some character is not a
decimal digit (the Python loop would raise `ValueError`). -/
def digitsOfChars : List Char → Option (List Nat)
  | [] => some []
  | c :: cs =>
      match charToDigit c, digitsOfChars cs with
      | some d, some ds => some (d :: ds)
      | _, _ => none

/-- Digit values of all characters of a string. -/
def strDigits (s : String) : Option (List Nat) :=
  digitsOfChars s.data

/-- Embedding of `is_card_number_valid` (banking.py lines 240-255).
The Python transforms `number[:-1]` with the odd-position doubling rule,
sums, adds `int(number[-1])` and accepts iff the total is divisible by 10.
It raises (here: `none`) on the empty string (`number[-1]` is an
`IndexError`) and on any non-digit character (`int` raises `ValueError`). -/
def is_card_number_valid (number : String) : Option Bool :=
  match strDigits number with
  | none => none
  | some ds =>
      if ds.isEmpty then none
      else some (decide (((luhnTransform ds.dropLast).sum + ds.getLastD 0) % 10 = 0))

/-- Issuer prefix `'400000'` of banking.py line 90, as digits. -/
def issuer_digits : List Nat := [4, 0, 0, 0, 0, 0]

/-- Embedding of `Account._get_account_num` (banking.py lines 113-140),
parameterised by the nine random digits `account_id` (each drawn from 0-9 by
`random.randint(0, 9)`). The 15-digit base is issuer prefix ++ identifier;
the checksum is `math.ceil(S/10)*10 - S` for `S` the sum of the
odd-position-doubled base digits; `math.ceil(S/10)` is `(S+9)/10` in exact
natural arithmetic. The result is the base string with `str(checksum)`
appended. -/
def get_account_num (account_id : List Nat) : String :=
  let num := issuer_digits ++ account_id
  let sum_new_num := (luhnTransform num).sum
  let checksum := (sum_new_num + 9) / 10 * 10 - sum_new_num
  String.mk (num.map digitToChar) ++ Nat.repr checksum

/-! ## Ledger store (database.py) -/

/-- Row of the SQLite table `card` (database.py lines 8-14); the
auto-increment `id` column plays no role in any query and is omitted. -/
structure Card where
  number : String
  pin : String
  balance : Int
  deriving Repr, DecidableEq

/-- The table `card`: its list of rows. -/
abbrev Store := List Card

/-- Embedding of `database.get_card_by_number` (database.py lines 54-56):
`SELECT number, pin, balance FROM card WHERE number = ?` + `fetchall()`
returns every row whose `number` column equals the argument. -/
def database.get_card_by_number (store : Store) (number : String) : List Card :=
  List.filter (fun c => c.number = number) store

/-- Embedding of `database.add_income` (database.py lines 64-73):
`UPDATE card SET balance = balance + ? WHERE number = ?` adds `income` to
the balance of every row matching `number` and leaves the others alone
(a silent no-op when no row matches). -/
def database.add_income (store : Store) (number : String) (income : Int) : Store :=
  List.map
    (fun c => if c.number = number then { c with balance := c.balance + income } else c)
    store

/-- Embedding of `database.delete_card` (database.py lines 76-79):
`DELETE FROM card WHERE number = ?` removes every matching row. -/
def database.delete_card (store : Store) (number : String) : Store :=
  List.filter (fun c => ¬ c.number = number) store

/-- Embedding of `do_card_number_exists` (banking.py lines 258-270):
`False if result == [] else True` on the `fetchall` result. -/
def do_card_number_exists (store : Store) (number : String) : Bool :=
  !(database.get_card_by_number store number).isEmpty

/-- Persisted balance of an account: the balance column of the first row
returned by `database.get_card_by_number`, `none` when no row matches. -/
def getBalance (store : Store) (number : String) : Option Int :=
  match database.get_card_by_number store number with
  | [] => none
  | c :: _ => some c.balance

/-! ## Session (class Account of banking.py) -/

/-- In-session account state: the `number`, `pin` and cached `balance`
attributes set by `Account.__init__` (the connection handle is the store
itself, threaded explicitly). -/
structure Account where
  number : String
  pin : String
  balance : Int
  deriving Repr, DecidableEq

/-- Embedding of `Account.add_income` (banking.py lines 189-197): persist
the delta with `database.add_income`, then update the cached balance. -/
def Account.add_income (acct : Account) (store : Store) (income : Int) :
    Account × Store :=
  ({ acct with balance := acct.balance + income },
   database.add_income store acct.number income)

/-- Outcome reported by `Account.transfer_money`, one constructor per print
branch of banking.py lines 211-233. -/
inductive TransferResult where
  | sameAccount
  | invalidNumber
  | noSuchCard
  | success
  | notEnoughMoney
  deriving Repr, DecidableEq

/-- Embedding of `Account.transfer_money` (banking.py lines 199-233).
The guards run in source order: receiver equals the own number, receiver
fails `is_card_number_valid`, receiver absent from the store; only then is
the amount read from standard input (here: the `amount` argument) and
checked against the cached balance. When `is_card_number_valid` raises
(returns `none`) the whole call raises: `none`. On success the sender row
is debited, the cached balance updated, then the receiver row credited. -/
def Account.transfer_money (acct : Account) (store : Store) (receiver : String)
    (amount : Int) : Option (TransferResult × Account × Store) :=
  if receiver = acct.number then
    some (.sameAccount, acct, store)
  else
    match is_card_number_valid receiver with
    | none => none
    | some false => some (.invalidNumber, acct, store)
    | some true =>
        if !do_card_number_exists store receiver then
          some (.noSuchCard, acct, store)
        else if amount ≤ acct.balance then
          let store₁ := database.add_income store acct.number (-amount)
          let acct₁ := { acct with balance := acct.balance - amount }
          let store₂ := database.add_income store₁ receiver amount
          some (.success, acct₁, store₂)
        else
          some (.notEnoughMoney, acct, store)

/-- Embedding of `Account.delete_account` (banking.py lines 235-237). -/
def Account.delete_account (acct : Account) (store : Store) : Store :=
  database.delete_card store acct.number

/-! ## Login (BankingSystem.login, banking.py lines 55-76) -/

/-- Result of a login attempt: an established session, or the one generic
failure message printed both when no row matches the card number and when
the pin differs. -/
inductive LoginResult where
  | success (acct : Account)
  | failure (message : String)
  deriving Repr, DecidableEq

/-- Embedding of `BankingSystem.login` (banking.py lines 55-76): fetch the
rows matching the input number; no row, or a pin mismatch against the first
row, prints the same message and establishes no session; otherwise an
`Account` session is built from the row. -/
def BankingSystem.login (store : Store) (card_num_inp pin_inp : String) :
    LoginResult :=
  match database.get_card_by_number store card_num_inp with
  | [] => .failure "Wrong card number or PIN!"
  | row :: _ =>
      if pin_inp ≠ row.pin then .failure "Wrong card number or PIN!"
      else .success { number := row.number, pin := row.pin, balance := row.balance }

/-! ## Account menu (banking.py lines 148-187) -/

/-- One iteration of the `Account.menu` loop: the chosen action together
with the values the Python reads from standard input during that
iteration. -/
inductive MenuAction where
  | exitSystem
  | showBalance
  | addIncome (income : Int)
  | doTransfer (receiver : String) (amount : Int)
  | closeAccount
  | logout
  deriving Repr, DecidableEq

/-- One iteration of the `Account.menu` `while True` loop (banking.py lines
148-187). The `Bool` says whether the loop runs another iteration: `false`
for action `'0'` (`exit()`) and `'5'` (`break`), `true` for every other
action — in particular for `'4'`, which calls `delete_account` and then
falls through to the next iteration. `none` models a raised exception
(a transfer whose receiver validation raises). -/
def menu_step (acct : Account) (store : Store) :
    MenuAction → Option (Bool × Account × Store)
  | .exitSystem => some (false, acct, store)
  | .showBalance => some (true, acct, store)
  | .addIncome income =>
      let (acct₁, store₁) := acct.add_income store income
      some (true, acct₁, store₁)
  | .doTransfer receiver amount =>
      match acct.transfer_money store receiver amount with
      | none => none
      | some (_, acct₁, store₁) => some (true, acct₁, store₁)
  | .closeAccount => some (true, acct, acct.delete_account store)
  | .logout => some (false, acct, store)

/-- Run of the `Account.menu` loop over a list of console inputs: actions
are consumed until one of them stops the loop (`exit()` or `break`) or
raises (`none`); remaining actions are then never executed. -/
def menu_run : List MenuAction → Account → Store → Option (Account × Store)
  | [], acct, store => some (acct, store)
  | a :: rest, acct, store =>
      match menu_step acct store a with
      | none => none
      | some (false, acct₁, store₁) => some (acct₁, store₁)
      | some (true, acct₁, store₁) => menu_run rest acct₁ store₁

/-- Side condition of the balance-invariant claim: the console action is a
deposit with non-negative income (the interface contract of `deposit`) or a
transfer with non-negative amount. -/
def nonNegSessionOp : MenuAction → Bool
  | .addIncome income => 0 ≤ income
  | .doTransfer _ amount => 0 ≤ amount
  | _ => false

/-! ## Helper lemmas on the checksum algorithm -/

lemma string_mk_append (a b : List Char) : String.mk a ++ String.mk b = String.mk (a ++ b) :=
  rfl

lemma luhnDouble_le_nine {d : Nat} (hd : d ≤ 9) : luhnDouble d ≤ 9 := by
  unfold luhnDouble
  split <;> omega

lemma luhnDouble_inj {a b : Nat} (ha : a ≤ 9) (hb : b ≤ 9) (hab : a ≠ b) :
    luhnDouble a ≠ luhnDouble b := by
  unfold luhnDouble
  split <;> split <;> omega

lemma charToDigit_digitToChar {d : Nat} (hd : d ≤ 9) :
    charToDigit (digitToChar d) = some d := by
  interval_cases d <;> decide

lemma digitsOfChars_map_digitToChar (l : List Nat) (h : ∀ d ∈ l, d ≤ 9) :
    digitsOfChars (l.map digitToChar) = some l := by
  induction l with
  | nil => rfl
  | cons d ds ih =>
      have hd : d ≤ 9 := h d (by simp)
      have hds : ∀ x ∈ ds, x ≤ 9 := fun x hx => h x (by simp [hx])
      simp only [List.map_cons, digitsOfChars, charToDigit_digitToChar hd, ih hds]

lemma strDigits_mk_map (l : List Nat) (h : ∀ d ∈ l, d ≤ 9) :
    strDigits (String.mk (l.map digitToChar)) = some l :=
  digitsOfChars_map_digitToChar l h

lemma repr_digit {d : Nat} (hd : d ≤ 9) : Nat.repr d = String.mk [digitToChar d] := by
  interval_cases d <;> decide

lemma is_card_number_valid_digits (ds : List Nat) (hne : ds ≠ [])
    (h : ∀ d ∈ ds, d ≤ 9) :
    is_card_number_valid (String.mk (ds.map digitToChar)) =
      some (decide (((luhnTransform ds.dropLast).sum + ds.getLastD 0) % 10 = 0)) := by
  obtain ⟨d, t, rfl⟩ : ∃ d t, ds = d :: t := by
    cases ds with
    | nil => exact absurd rfl hne
    | cons d t => exact ⟨d, t, rfl⟩
  rw [is_card_number_valid, strDigits_mk_map _ h]
  simp only [List.isEmpty_cons, Bool.false_eq_true, if_false]

lemma set_concat_last (l : List Nat) (c d : Nat) : (l ++ [c]).set l.length d = l ++ [d] := by
  rw [List.set_append_right _ _ (Nat.le_refl _)]
  simp

lemma getD_concat_last (l : List Nat) (c : Nat) : (l ++ [c]).getD l.length 0 = c := by
  simp [List.getD_eq_getElem?_getD]

lemma luhnTransformFrom_sum_mod_ne (l : List Nat) :
    ∀ (start i d' : Nat), i < l.length → (∀ d ∈ l, d ≤ 9) → d' ≤ 9 →
      d' ≠ l.getD i 0 →
      (luhnTransformFrom start (l.set i d')).sum % 10 ≠
        (luhnTransformFrom start l).sum % 10 := by
  induction l with
  | nil =>
      intro start i d' hi
      simp at hi
  | cons h t ih =>
      intro start i d' hi hl hd' hne
      have hh : h ≤ 9 := hl h (by simp)
      cases i with
      | zero =>
          rw [List.getD_cons_zero] at hne
          rw [List.set_cons_zero]
          simp only [luhnTransformFrom, List.sum_cons]
          by_cases hp : start % 2 = 1
          · simp only [hp, if_pos]
            have hinj := luhnDouble_inj hd' hh hne
            have h1 := luhnDouble_le_nine hd'
            have h2 := luhnDouble_le_nine hh
            omega
          · simp only [hp, if_neg, ite_false]
            omega
      | succ j =>
          have hj : j < t.length := by simpa using hi
          have ht : ∀ d ∈ t, d ≤ 9 := fun d hd => hl d (by simp [hd])
          have hne' : d' ≠ t.getD j 0 := by rwa [List.getD_cons_succ] at hne
          have hrec := ih (start + 1) j d' hj ht hd' hne'
          rw [List.set_cons_succ]
          simp only [luhnTransformFrom, List.sum_cons]
          generalize (if (start : Nat) % 2 = 1 then luhnDouble h else h) = x
          omega

lemma luhnTransform_sum_mod_ne (l : List Nat) (i d' : Nat) (hi : i < l.length)
    (hl : ∀ d ∈ l, d ≤ 9) (hd' : d' ≤ 9) (hne : d' ≠ l.getD i 0) :
    (luhnTransform (l.set i d')).sum % 10 ≠ (luhnTransform l).sum % 10 :=
  luhnTransformFrom_sum_mod_ne l 1 i d' hi hl hd' hne

/-! ## Claim theorems: identity service -/

/-- C1: for every choice of the nine random identifier digits, the 16-digit
number produced by the generation algorithm of `Account._get_account_num`
passes `is_card_number_valid`. -/
theorem C1_generated_number_validates (account_id : List Nat)
    (hlen : account_id.length = 9) (hdig : ∀ d ∈ account_id, d ≤ 9) :
    is_card_number_valid (get_account_num account_id) = some true := by
  have hnum : ∀ d ∈ issuer_digits ++ account_id, d ≤ 9 := by
    intro d hd
    rw [List.mem_append] at hd
    rcases hd with h | h
    · simp [issuer_digits] at h
      omega
    · exact hdig d h
  have hc9 : ∀ s : Nat, (s + 9) / 10 * 10 - s ≤ 9 := fun s => by omega
  have hform : get_account_num account_id =
      String.mk (((issuer_digits ++ account_id) ++
        [((luhnTransform (issuer_digits ++ account_id)).sum + 9) / 10 * 10 -
          (luhnTransform (issuer_digits ++ account_id)).sum]).map digitToChar) := by
    simp only [get_account_num]
    rw [repr_digit (hc9 _), string_mk_append]
    simp [List.map_append, List.append_assoc]
  have hall : ∀ d ∈ (issuer_digits ++ account_id) ++
      [((luhnTransform (issuer_digits ++ account_id)).sum + 9) / 10 * 10 -
        (luhnTransform (issuer_digits ++ account_id)).sum], d ≤ 9 := by
    intro d hd
    rw [List.mem_append] at hd
    rcases hd with h | h
    · exact hnum d h
    · simp at h
      subst h
      exact hc9 _
  rw [hform, is_card_number_valid_digits _ (by simp) hall,
    List.dropLast_concat, List.getLastD_concat]
  simp only [Option.some.injEq, decide_eq_true_eq]
  generalize (luhnTransform (issuer_digits ++ account_id)).sum = s
  omega

/-- Witness for C1 at the identifier digits 023456789 (the base of the
fixed test vector of the spec). -/
theorem C1_generated_number_validates_witness :
    ([0, 2, 3, 4, 5, 6, 7, 8, 9] : List Nat).length = 9 ∧
    (∀ d ∈ ([0, 2, 3, 4, 5, 6, 7, 8, 9] : List Nat), d ≤ 9) ∧
    is_card_number_valid (get_account_num [0, 2, 3, 4, 5, 6, 7, 8, 9]) = some true :=
  ⟨by decide, by decide,
    C1_generated_number_validates [0, 2, 3, 4, 5, 6, 7, 8, 9] (by decide) (by decide)⟩

/-- C8 counterexample: `is_card_number_valid` does not return a boolean on
every candidate string — on the empty string the Python indexes
`number[-1]` and raises `IndexError`, and on a string with a non-digit
character `int` raises `ValueError`; both executions are `none` here. -/
theorem C8_validation_raises_counterexample :
    is_card_number_valid "" = none ∧ is_card_number_valid "4000A00234567891" = none := by
  constructor <;> decide

lemma digitsOfChars_of_all_digits (cs : List Char) (h : ∀ c ∈ cs, c.isDigit) :
    ∃ ds : List Nat, digitsOfChars cs = some ds ∧ ds.length = cs.length := by
  induction cs with
  | nil => exact ⟨[], rfl, rfl⟩
  | cons c cs ih =>
      obtain ⟨ds, hds, hlen⟩ := ih (fun x hx => h x (by simp [hx]))
      have hc : c.isDigit := h c (by simp)
      refine ⟨(c.toNat - 48) :: ds, ?_, by simp [hlen]⟩
      simp only [digitsOfChars, charToDigit, hc, if_pos, hds]

/-- C8 amended: on every nonempty string made of decimal digit characters
(in particular on every 16-digit candidate), `is_card_number_valid` returns
a boolean and never raises; on the empty string and on strings with a
non-digit character the Python raises. -/
theorem C8_validation_total_on_digit_strings (s : String)
    (hne : s.data ≠ []) (hdig : ∀ c ∈ s.data, c.isDigit) :
    ∃ b : Bool, is_card_number_valid s = some b := by
  obtain ⟨ds, hds, hlen⟩ := digitsOfChars_of_all_digits s.data hdig
  refine ⟨decide (((luhnTransform ds.dropLast).sum + ds.getLastD 0) % 10 = 0), ?_⟩
  rw [is_card_number_valid, strDigits, hds]
  have hemp : ds.isEmpty = false := by
    cases ds with
    | nil =>
        exfalso
        apply hne
        have hz : s.data.length = 0 := by simpa using hlen.symm
        exact List.length_eq_zero.mp hz
    | cons d t => exact List.isEmpty_cons
  simp [hemp]

/-- Witness for the amended C8 at the two-digit string 12. -/
theorem C8_validation_total_witness :
    (("12" : String).data ≠ [] ∧ ∀ c ∈ ("12" : String).data, c.isDigit) ∧
    ∃ b : Bool, is_card_number_valid "12" = some b :=
  ⟨⟨by decide, by decide⟩,
    C8_validation_total_on_digit_strings "12" (by decide) (by decide)⟩

/-- C9: mutating a single digit of a checksum-valid 16-digit number always
yields an invalid number — the set of single-digit mutations that preserve
the checksum is empty. The number is given by its digit list `ds`, the
mutation replaces position `i` (0-indexed) by a different digit `d'`. -/
theorem C9_single_digit_mutation_invalidates (ds : List Nat) (i d' : Nat)
    (hlen : ds.length = 16) (hds : ∀ d ∈ ds, d ≤ 9) (hd' : d' ≤ 9)
    (hi : i < 16) (hne : d' ≠ ds.getD i 0)
    (hvalid : is_card_number_valid (String.mk (ds.map digitToChar)) = some true) :
    is_card_number_valid (String.mk ((ds.set i d').map digitToChar)) = some false := by
  rcases List.eq_nil_or_concat ds with rfl | ⟨body, c, rfl⟩
  · simp at hlen
  rw [List.concat_eq_append body c] at hlen hds hne hvalid ⊢
  have hblen : body.length = 15 := by
    rw [List.length_append] at hlen
    simpa using hlen
  have hbody : ∀ d ∈ body, d ≤ 9 := fun d hd => hds d (by simp [hd])
  have hc : c ≤ 9 := hds c (by simp)
  have hS : ((luhnTransform body).sum + c) % 10 = 0 := by
    rw [is_card_number_valid_digits _ (by simp) hds, List.dropLast_concat,
      List.getLastD_concat] at hvalid
    simpa using hvalid
  rcases Nat.lt_or_ge i 15 with hilt | hige
  · have hib : i < body.length := by omega
    have hset : (body ++ [c]).set i d' = body.set i d' ++ [c] :=
      List.set_append_left i d' hib
    have hall : ∀ d ∈ body.set i d' ++ [c], d ≤ 9 := by
      intro d hd
      rw [List.mem_append] at hd
      rcases hd with h | h
      · rcases List.mem_or_eq_of_mem_set h with h₁ | h₁
        · exact hbody d h₁
        · omega
      · simp at h
        omega
    have hne' : d' ≠ body.getD i 0 := by
      rwa [List.getD_append body [c] 0 i hib] at hne
    have hmod := luhnTransform_sum_mod_ne body i d' hib hbody hd' hne'
    rw [hset, is_card_number_valid_digits _ (by simp) hall, List.dropLast_concat,
      List.getLastD_concat]
    simp only [Option.some.injEq, decide_eq_false_iff_not]
    omega
  · have hieq : i = 15 := by omega
    subst hieq
    have hset : (body ++ [c]).set 15 d' = body ++ [d'] := by
      rw [← hblen]
      exact set_concat_last body c d'
    have hnec : d' ≠ c := by
      rw [← hblen] at hne
      rwa [getD_concat_last body c] at hne
    have hall : ∀ d ∈ body ++ [d'], d ≤ 9 := by
      intro d hd
      rw [List.mem_append] at hd
      rcases hd with h | h
      · exact hbody d h
      · simp at h
        omega
    rw [hset, is_card_number_valid_digits _ (by simp) hall, List.dropLast_concat,
      List.getLastD_concat]
    simp only [Option.some.injEq, decide_eq_false_iff_not]
    omega

/-- Witness for C9: the valid number 4000000234567891 with its last digit
replaced by 2. -/
theorem C9_single_digit_mutation_witness :
    (([4, 0, 0, 0, 0, 0, 0, 2, 3, 4, 5, 6, 7, 8, 9, 1] : List Nat).length = 16 ∧
      (∀ d ∈ ([4, 0, 0, 0, 0, 0, 0, 2, 3, 4, 5, 6, 7, 8, 9, 1] : List Nat), d ≤ 9) ∧
      (2 : Nat) ≤ 9 ∧ (15 : Nat) < 16 ∧
      (2 : Nat) ≠ ([4, 0, 0, 0, 0, 0, 0, 2, 3, 4, 5, 6, 7, 8, 9, 1] : List Nat).getD 15 0 ∧
      is_card_number_valid
        (String.mk (([4, 0, 0, 0, 0, 0, 0, 2, 3, 4, 5, 6, 7, 8, 9, 1] : List Nat).map digitToChar)) =
        some true) ∧
    is_card_number_valid
      (String.mk ((([4, 0, 0, 0, 0, 0, 0, 2, 3, 4, 5, 6, 7, 8, 9, 1] : List Nat).set 15 2).map digitToChar)) =
      some false :=
  ⟨⟨by decide, by decide, by decide, by decide, by decide, by decide⟩,
    C9_single_digit_mutation_invalidates [4, 0, 0, 0, 0, 0, 0, 2, 3, 4, 5, 6, 7, 8, 9, 1]
      15 2 (by decide) (by decide) (by decide) (by decide) (by decide) (by decide)⟩

/-! ## Helper lemmas on the ledger and the transfer operation -/

lemma transfer_success_eq (acct : Account) (store : Store) (receiver : String)
    (amount : Int) (h1 : receiver ≠ acct.number)
    (h2 : is_card_number_valid receiver = some true)
    (h3 : do_card_number_exists store receiver = true)
    (h4 : amount ≤ acct.balance) :
    acct.transfer_money store receiver amount =
      some (.success, { acct with balance := acct.balance - amount },
        database.add_income (database.add_income store acct.number (-amount))
          receiver amount) := by
  simp [Account.transfer_money, h1, h2, h3, h4]

lemma transfer_money_spec (acct : Account) (store : Store) (receiver : String)
    (amount : Int) (res : TransferResult) (acct₁ : Account) (store₁ : Store)
    (h : acct.transfer_money store receiver amount = some (res, acct₁, store₁)) :
    (res ≠ .success ∧ acct₁ = acct ∧ store₁ = store) ∨
    (res = .success ∧ receiver ≠ acct.number ∧ amount ≤ acct.balance ∧
      acct₁ = { acct with balance := acct.balance - amount } ∧
      store₁ = database.add_income (database.add_income store acct.number (-amount))
        receiver amount) := by
  by_cases h1 : receiver = acct.number
  · simp only [Account.transfer_money, h1, if_pos, Option.some.injEq, Prod.mk.injEq] at h
    left
    refine ⟨?_, h.2.1.symm, h.2.2.symm⟩
    rw [← h.1]
    simp
  · rcases hv : is_card_number_valid receiver with _ | b
    · simp [Account.transfer_money, h1, hv] at h
    · cases b
      · simp only [Account.transfer_money, h1, hv, if_neg, ite_false,
          Option.some.injEq, Prod.mk.injEq] at h
        left
        refine ⟨?_, h.2.1.symm, h.2.2.symm⟩
        rw [← h.1]
        simp
      · by_cases h3 : do_card_number_exists store receiver
        · by_cases h4 : amount ≤ acct.balance
          · simp only [Account.transfer_money, h1, hv, h3, h4, if_neg, ite_false,
              Bool.not_true, Bool.false_eq_true, if_true, ite_true,
              Option.some.injEq, Prod.mk.injEq] at h
            right
            exact ⟨h.1.symm, h1, h4, h.2.1.symm, h.2.2.symm⟩
          · simp only [Account.transfer_money, h1, hv, h3, h4, if_neg, ite_false,
              Bool.not_true, Bool.false_eq_true, if_true, ite_true,
              Option.some.injEq, Prod.mk.injEq] at h
            left
            refine ⟨?_, h.2.1.symm, h.2.2.symm⟩
            rw [← h.1]
            simp
        · simp only [Account.transfer_money, h1, hv, h3, if_neg, ite_false,
            Bool.not_false, if_true, ite_true, Option.some.injEq, Prod.mk.injEq,
            Bool.false_eq_true] at h
          left
          refine ⟨?_, h.2.1.symm, h.2.2.symm⟩
          rw [← h.1]
          simp

lemma number_add_income_map (c : Card) (n : String) (d : Int) :
    (if c.number = n then { c with balance := c.balance + d } else c).number = c.number := by
  split <;> rfl

lemma get_card_by_number_add_income (store : Store) (n m : String) (d : Int) :
    database.get_card_by_number (database.add_income store n d) m =
      List.map (fun c => if c.number = n then { c with balance := c.balance + d } else c)
        (database.get_card_by_number store m) := by
  induction store with
  | nil => rfl
  | cons c cs ih =>
      simp only [database.add_income, database.get_card_by_number, List.map_cons,
        List.filter_cons] at ih ⊢
      rw [number_add_income_map]
      by_cases h : c.number = m
      · simp [h, ih]
      · simp [h, ih]

lemma getBalance_add_income_same (store : Store) (n : String) (d : Int) :
    getBalance (database.add_income store n d) n =
      (getBalance store n).map (fun b => b + d) := by
  simp only [getBalance]
  rw [get_card_by_number_add_income]
  rcases hfil : database.get_card_by_number store n with _ | ⟨c, rest⟩
  · rfl
  · have hmem : c ∈ database.get_card_by_number store n := by
      rw [hfil]
      exact List.mem_cons_self c rest
    have hc : c.number = n := by
      have hp := List.of_mem_filter hmem
      simpa using hp
    simp [hc]

lemma getBalance_add_income_other (store : Store) (n m : String) (d : Int)
    (hnm : m ≠ n) :
    getBalance (database.add_income store n d) m = getBalance store m := by
  simp only [getBalance]
  rw [get_card_by_number_add_income]
  rcases hfil : database.get_card_by_number store m with _ | ⟨c, rest⟩
  · rfl
  · have hmem : c ∈ database.get_card_by_number store m := by
      rw [hfil]
      exact List.mem_cons_self c rest
    have hc : c.number = m := by
      have hp := List.of_mem_filter hmem
      simpa using hp
    have hcn : ¬ c.number = n := by
      rw [hc]
      exact hnm
    simp [hcn]

/-! ## Claim theorems: transfer -/

/-- C3: when all four transfer guards pass, the sender's persisted balance
decreases by exactly the amount, the receiver's persisted balance increases
by exactly the same amount, and the sender's in-session cached balance
decreases by the same amount. -/
theorem C3_transfer_success_postcondition (acct : Account) (store : Store)
    (receiver : String) (amount : Int)
    (h1 : receiver ≠ acct.number)
    (h2 : is_card_number_valid receiver = some true)
    (h3 : do_card_number_exists store receiver = true)
    (h4 : amount ≤ acct.balance) :
    ∃ acct₁ store₁,
      acct.transfer_money store receiver amount = some (.success, acct₁, store₁) ∧
      acct₁.balance = acct.balance - amount ∧
      getBalance store₁ acct.number =
        (getBalance store acct.number).map (fun b => b - amount) ∧
      getBalance store₁ receiver =
        (getBalance store receiver).map (fun b => b + amount) := by
  refine ⟨_, _, transfer_success_eq acct store receiver amount h1 h2 h3 h4, rfl, ?_, ?_⟩
  · rw [getBalance_add_income_other _ receiver acct.number amount (Ne.symm h1),
      getBalance_add_income_same]
    have hfun : (fun b : Int => b + (-amount)) = fun b => b - amount :=
      funext fun b => by omega
    rw [hfun]
  · rw [getBalance_add_income_same,
      getBalance_add_income_other store acct.number receiver (-amount) h1]

/-- Witness for C3: the worked example of the spec — sender balance 200,
receiver balance 0, transfer 50. -/
theorem C3_transfer_success_witness :
    (("4000000000000002" : String) ≠ "4000000234567891" ∧
      is_card_number_valid "4000000000000002" = some true ∧
      do_card_number_exists
        [⟨"4000000234567891", "1234", 200⟩, ⟨"4000000000000002", "0000", 0⟩]
        "4000000000000002" = true ∧
      (50 : Int) ≤ 200) ∧
    ∃ acct₁ store₁,
      Account.transfer_money ⟨"4000000234567891", "1234", 200⟩
          [⟨"4000000234567891", "1234", 200⟩, ⟨"4000000000000002", "0000", 0⟩]
          "4000000000000002" 50 = some (.success, acct₁, store₁) ∧
      acct₁.balance = 200 - 50 ∧
      getBalance store₁ "4000000234567891" =
        (getBalance
          [⟨"4000000234567891", "1234", 200⟩, ⟨"4000000000000002", "0000", 0⟩]
          "4000000234567891").map (fun b => b - 50) ∧
      getBalance store₁ "4000000000000002" =
        (getBalance
          [⟨"4000000234567891", "1234", 200⟩, ⟨"4000000000000002", "0000", 0⟩]
          "4000000000000002").map (fun b => b + 50) :=
  ⟨⟨by decide, by decide, by decide, by decide⟩,
    C3_transfer_success_postcondition ⟨"4000000234567891", "1234", 200⟩
      [⟨"4000000234567891", "1234", 200⟩, ⟨"4000000000000002", "0000", 0⟩]
      "4000000000000002" 50 (by decide) (by decide) (by decide) (by decide)⟩

/-- C4: the transfer guards are evaluated in the fixed source order — own
number, checksum validity, existence — each failing guard deciding the
result regardless of everything later; in particular the result does not
depend on the amount when one of the first three guards fails, and a
transfer to the own number is rejected whatever the amount. -/
theorem C4_guard_order_short_circuit (acct : Account) (store : Store)
    (receiver : String) (amount amount' : Int) :
    (receiver = acct.number →
      acct.transfer_money store receiver amount = some (.sameAccount, acct, store)) ∧
    (receiver ≠ acct.number → is_card_number_valid receiver = some false →
      acct.transfer_money store receiver amount = some (.invalidNumber, acct, store)) ∧
    (receiver ≠ acct.number → is_card_number_valid receiver = some true →
      do_card_number_exists store receiver = false →
      acct.transfer_money store receiver amount = some (.noSuchCard, acct, store)) ∧
    ((receiver = acct.number ∨ is_card_number_valid receiver ≠ some true ∨
        do_card_number_exists store receiver = false) →
      acct.transfer_money store receiver amount =
        acct.transfer_money store receiver amount') := by
  refine ⟨fun h1 => by simp [Account.transfer_money, h1],
    fun h1 h2 => by simp [Account.transfer_money, h1, h2],
    fun h1 h2 h3 => by simp [Account.transfer_money, h1, h2, h3],
    fun hfail => ?_⟩
  by_cases h1 : receiver = acct.number
  · simp [Account.transfer_money, h1]
  · rcases hv : is_card_number_valid receiver with _ | b
    · simp [Account.transfer_money, h1, hv]
    · cases b
      · simp [Account.transfer_money, h1, hv]
      · have h3 : do_card_number_exists store receiver = false := by
          rcases hfail with h | h | h
          · exact absurd h h1
          · exact absurd hv h
          · exact h
        simp [Account.transfer_money, h1, hv, h3]

/-- Witness for C4: each guard observed on a concrete store — the own
number, an invalid number, a valid absent number, and amount-independence
of the own-number rejection. -/
theorem C4_guard_order_witness :
    Account.transfer_money ⟨"4000000234567891", "1234", 100⟩
        [⟨"4000000234567891", "1234", 100⟩] "4000000234567891" 7 =
      some (.sameAccount, ⟨"4000000234567891", "1234", 100⟩,
        [⟨"4000000234567891", "1234", 100⟩]) ∧
    Account.transfer_money ⟨"4000000234567891", "1234", 100⟩
        [⟨"4000000234567891", "1234", 100⟩] "4000000234567892" 7 =
      some (.invalidNumber, ⟨"4000000234567891", "1234", 100⟩,
        [⟨"4000000234567891", "1234", 100⟩]) ∧
    Account.transfer_money ⟨"4000000234567891", "1234", 100⟩
        [⟨"4000000234567891", "1234", 100⟩] "4000000000000002" 7 =
      some (.noSuchCard, ⟨"4000000234567891", "1234", 100⟩,
        [⟨"4000000234567891", "1234", 100⟩]) ∧
    Account.transfer_money ⟨"4000000234567891", "1234", 100⟩
        [⟨"4000000234567891", "1234", 100⟩] "4000000234567891" 7 =
      Account.transfer_money ⟨"4000000234567891", "1234", 100⟩
        [⟨"4000000234567891", "1234", 100⟩] "4000000234567891" 8 :=
  ⟨(C4_guard_order_short_circuit ⟨"4000000234567891", "1234", 100⟩
      [⟨"4000000234567891", "1234", 100⟩] "4000000234567891" 7 8).1 rfl,
    (C4_guard_order_short_circuit ⟨"4000000234567891", "1234", 100⟩
      [⟨"4000000234567891", "1234", 100⟩] "4000000234567892" 7 8).2.1
      (by decide) (by decide),
    (C4_guard_order_short_circuit ⟨"4000000234567891", "1234", 100⟩
      [⟨"4000000234567891", "1234", 100⟩] "4000000000000002" 7 8).2.2.1
      (by decide) (by decide) (by decide),
    (C4_guard_order_short_circuit ⟨"4000000234567891", "1234", 100⟩
      [⟨"4000000234567891", "1234", 100⟩] "4000000234567891" 7 8).2.2.2
      (Or.inl rfl)⟩

/-- C5: whenever a transfer is rejected — by any of the four guards — the
session account and the whole persisted store are returned unchanged: no
partial transfer. -/
theorem C5_rejection_atomicity (acct : Account) (store : Store)
    (receiver : String) (amount : Int) (res : TransferResult)
    (acct₁ : Account) (store₁ : Store)
    (h : acct.transfer_money store receiver amount = some (res, acct₁, store₁))
    (hres : res ≠ .success) :
    acct₁ = acct ∧ store₁ = store := by
  rcases transfer_money_spec acct store receiver amount res acct₁ store₁ h with
    ⟨_, ha, hs⟩ | ⟨hsucc, _⟩
  · exact ⟨ha, hs⟩
  · exact absurd hsucc hres

/-- Witness for C5: an insufficient-funds rejection (amount 300 against
balance 200) leaves the account and the store unchanged. -/
theorem C5_rejection_atomicity_witness :
    (Account.transfer_money ⟨"4000000234567891", "1234", 200⟩
        [⟨"4000000234567891", "1234", 200⟩, ⟨"4000000000000002", "0000", 0⟩]
        "4000000000000002" 300 =
      some (.notEnoughMoney, ⟨"4000000234567891", "1234", 200⟩,
        [⟨"4000000234567891", "1234", 200⟩, ⟨"4000000000000002", "0000", 0⟩]) ∧
      TransferResult.notEnoughMoney ≠ .success) ∧
    (⟨"4000000234567891", "1234", 200⟩ : Account) = ⟨"4000000234567891", "1234", 200⟩ ∧
    ([⟨"4000000234567891", "1234", 200⟩, ⟨"4000000000000002", "0000", 0⟩] : Store) =
      [⟨"4000000234567891", "1234", 200⟩, ⟨"4000000000000002", "0000", 0⟩] :=
  ⟨⟨by decide, by decide⟩,
    C5_rejection_atomicity ⟨"4000000234567891", "1234", 200⟩
      [⟨"4000000234567891", "1234", 200⟩, ⟨"4000000000000002", "0000", 0⟩]
      "4000000000000002" 300 .notEnoughMoney ⟨"4000000234567891", "1234", 200⟩
      [⟨"4000000234567891", "1234", 200⟩, ⟨"4000000000000002", "0000", 0⟩]
      (by decide) (by decide)⟩
/-- C10: once the receiver passes the three preliminary guards, the only
amount guard is `amount <= balance`; every integer amount not exceeding the
cached balance — zero and negative amounts included — is accepted and
applied with its sign, so a negative amount increases the sender's
persisted and cached balance by its absolute value and decreases the
receiver's persisted balance by it. -/
theorem C10_negative_amount_accepted (acct : Account) (store : Store)
    (receiver : String) (amount : Int)
    (h1 : receiver ≠ acct.number)
    (h2 : is_card_number_valid receiver = some true)
    (h3 : do_card_number_exists store receiver = true)
    (h4 : amount ≤ acct.balance) :
    ∃ acct₁ store₁,
      acct.transfer_money store receiver amount = some (.success, acct₁, store₁) ∧
      acct₁.balance = acct.balance - amount ∧
      getBalance store₁ acct.number =
        (getBalance store acct.number).map (fun b => b - amount) ∧
      getBalance store₁ receiver =
        (getBalance store receiver).map (fun b => b + amount) ∧
      (amount < 0 →
        acct₁.balance = acct.balance + (amount.natAbs : Int) ∧
        getBalance store₁ acct.number =
          (getBalance store acct.number).map (fun b => b + (amount.natAbs : Int)) ∧
        getBalance store₁ receiver =
          (getBalance store receiver).map (fun b => b - (amount.natAbs : Int))) := by
  have hsender :
      getBalance (database.add_income (database.add_income store acct.number (-amount))
          receiver amount) acct.number =
        (getBalance store acct.number).map (fun b => b - amount) := by
    rw [getBalance_add_income_other _ receiver acct.number amount (Ne.symm h1),
      getBalance_add_income_same]
    have hfun : (fun b : Int => b + (-amount)) = fun b => b - amount :=
      funext fun b => by omega
    rw [hfun]
  have hreceiver :
      getBalance (database.add_income (database.add_income store acct.number (-amount))
          receiver amount) receiver =
        (getBalance store receiver).map (fun b => b + amount) := by
    rw [getBalance_add_income_same,
      getBalance_add_income_other store acct.number receiver (-amount) h1]
  refine ⟨_, _, transfer_success_eq acct store receiver amount h1 h2 h3 h4, rfl,
    hsender, hreceiver, fun hneg => ⟨?_, ?_, ?_⟩⟩
  · show acct.balance - amount = acct.balance + (amount.natAbs : Int)
    omega
  · rw [hsender]
    have hfun : (fun b : Int => b - amount) = fun b => b + (amount.natAbs : Int) :=
      funext fun b => by omega
    rw [hfun]
  · rw [hreceiver]
    have hfun : (fun b : Int => b + amount) = fun b => b - (amount.natAbs : Int) :=
      funext fun b => by omega
    rw [hfun]

/-- Witness for C10: a transfer of amount -50 from a sender with balance 0
succeeds, leaving the sender at 50 and the receiver at -50. -/
theorem C10_negative_amount_witness :
    (("4000000000000002" : String) ≠ "4000000234567891" ∧
      is_card_number_valid "4000000000000002" = some true ∧
      do_card_number_exists
        [⟨"4000000234567891", "1234", 0⟩, ⟨"4000000000000002", "0000", 0⟩]
        "4000000000000002" = true ∧
      (-50 : Int) ≤ 0) ∧
    ∃ acct₁ store₁,
      Account.transfer_money ⟨"4000000234567891", "1234", 0⟩
          [⟨"4000000234567891", "1234", 0⟩, ⟨"4000000000000002", "0000", 0⟩]
          "4000000000000002" (-50) = some (.success, acct₁, store₁) ∧
      acct₁.balance = 0 - (-50) ∧
      getBalance store₁ "4000000234567891" =
        (getBalance
          [⟨"4000000234567891", "1234", 0⟩, ⟨"4000000000000002", "0000", 0⟩]
          "4000000234567891").map (fun b => b - (-50)) ∧
      getBalance store₁ "4000000000000002" =
        (getBalance
          [⟨"4000000234567891", "1234", 0⟩, ⟨"4000000000000002", "0000", 0⟩]
          "4000000000000002").map (fun b => b + (-50)) ∧
      ((-50 : Int) < 0 →
        acct₁.balance = 0 + (((-50 : Int).natAbs : Int)) ∧
        getBalance store₁ "4000000234567891" =
          (getBalance
            [⟨"4000000234567891", "1234", 0⟩, ⟨"4000000000000002", "0000", 0⟩]
            "4000000234567891").map (fun b => b + (((-50 : Int).natAbs : Int))) ∧
        getBalance store₁ "4000000000000002" =
          (getBalance
            [⟨"4000000234567891", "1234", 0⟩, ⟨"4000000000000002", "0000", 0⟩]
            "4000000000000002").map (fun b => b - (((-50 : Int).natAbs : Int)))) :=
  ⟨⟨by decide, by decide, by decide, by decide⟩,
    C10_negative_amount_accepted ⟨"4000000234567891", "1234", 0⟩
      [⟨"4000000234567891", "1234", 0⟩, ⟨"4000000000000002", "0000", 0⟩]
      "4000000000000002" (-50) (by decide) (by decide) (by decide) (by decide)⟩

/-! ## Claim theorems: login -/

lemma store_number_inj (store : Store)
    (hwf : store.Pairwise (fun a b => a.number ≠ b.number)) :
    ∀ a ∈ store, ∀ b ∈ store, a.number = b.number → a = b := by
  induction store with
  | nil => simp
  | cons c cs ih =>
      rcases List.pairwise_cons.mp hwf with ⟨hc, hcs⟩
      intro a ha b hb hab
      rcases List.mem_cons.mp ha with ha1 | ha1
      · subst ha1
        rcases List.mem_cons.mp hb with hb1 | hb1
        · subst hb1
          rfl
        · exact absurd hab (hc b hb1)
      · rcases List.mem_cons.mp hb with hb1 | hb1
        · subst hb1
          exact absurd hab.symm (hc a ha1)
        · exact ih hcs a ha1 b hb1 hab

/-- C6: given a store whose numbers are unique (the UNIQUE constraint of
the table), a login succeeds iff a row with the input card number exists
and its stored pin equals the input pin; when no such row-and-pin pair
exists — whether the number is absent or the pin mismatches — the result is
the one generic failure message, and no session is established. -/
theorem C6_login_contract (store : Store) (card_num_inp pin_inp : String)
    (hwf : store.Pairwise (fun a b => a.number ≠ b.number)) :
    ((∃ acct, BankingSystem.login store card_num_inp pin_inp = .success acct) ↔
      ∃ c ∈ store, c.number = card_num_inp ∧ c.pin = pin_inp) ∧
    ((¬ ∃ c ∈ store, c.number = card_num_inp ∧ c.pin = pin_inp) →
      BankingSystem.login store card_num_inp pin_inp =
        .failure "Wrong card number or PIN!") := by
  have key : ∀ c ∈ store, c.number = card_num_inp →
      c ∈ database.get_card_by_number store card_num_inp := by
    intro c hc hn
    exact List.mem_filter.mpr ⟨hc, by simp [hn]⟩
  constructor
  · constructor
    · rintro ⟨acct, hacct⟩
      rw [BankingSystem.login] at hacct
      rcases hfil : database.get_card_by_number store card_num_inp with _ | ⟨row, rest⟩
      · rw [hfil] at hacct
        exact absurd hacct (by simp)
      · rw [hfil] at hacct
        have hrowmem : row ∈ database.get_card_by_number store card_num_inp := by
          rw [hfil]
          exact List.mem_cons_self row rest
        have hrowstore : row ∈ store := (List.mem_filter.mp hrowmem).1
        have hrownum : row.number = card_num_inp := by
          have hp := (List.mem_filter.mp hrowmem).2
          simpa using hp
        by_cases hpin : pin_inp ≠ row.pin
        · simp [hpin] at hacct
        · push_neg at hpin
          exact ⟨row, hrowstore, hrownum, hpin.symm⟩
    · rintro ⟨c, hc, hn, hp⟩
      rcases hfil : database.get_card_by_number store card_num_inp with _ | ⟨row, rest⟩
      · have hcmem := key c hc hn
        rw [hfil] at hcmem
        exact absurd hcmem (by simp)
      · have hrowmem : row ∈ database.get_card_by_number store card_num_inp := by
          rw [hfil]
          exact List.mem_cons_self row rest
        have hrowstore : row ∈ store := (List.mem_filter.mp hrowmem).1
        have hrownum : row.number = card_num_inp := by
          have hpred := (List.mem_filter.mp hrowmem).2
          simpa using hpred
        have hceq : c = row :=
          store_number_inj store hwf c hc row hrowstore (by rw [hn, hrownum])
        have hpin : ¬ pin_inp ≠ row.pin := by
          rw [← hceq, ← hp]
          exact fun hne => hne rfl
        refine ⟨⟨row.number, row.pin, row.balance⟩, ?_⟩
        rw [BankingSystem.login, hfil]
        simp [hpin]
  · intro hnone
    rcases hfil : database.get_card_by_number store card_num_inp with _ | ⟨row, rest⟩
    · rw [BankingSystem.login, hfil]
    · have hrowmem : row ∈ database.get_card_by_number store card_num_inp := by
        rw [hfil]
        exact List.mem_cons_self row rest
      have hrowstore : row ∈ store := (List.mem_filter.mp hrowmem).1
      have hrownum : row.number = card_num_inp := by
        have hpred := (List.mem_filter.mp hrowmem).2
        simpa using hpred
      have hpinne : pin_inp ≠ row.pin := by
        intro heq
        exact hnone ⟨row, hrowstore, hrownum, heq.symm⟩
      rw [BankingSystem.login, hfil]
      simp [hpinne]

/-- Witness for C6 at a one-row store: correct credentials succeed and a
wrong pin yields the generic failure. -/
theorem C6_login_contract_witness :
    ([⟨"4000000234567891", "1234", 0⟩] : Store).Pairwise
      (fun a b => a.number ≠ b.number) ∧
    (((∃ acct, BankingSystem.login [⟨"4000000234567891", "1234", 0⟩]
          "4000000234567891" "1234" = .success acct) ↔
        ∃ c ∈ ([⟨"4000000234567891", "1234", 0⟩] : Store),
          c.number = "4000000234567891" ∧ c.pin = "1234") ∧
      ((¬ ∃ c ∈ ([⟨"4000000234567891", "1234", 0⟩] : Store),
          c.number = "4000000234567891" ∧ c.pin = "1234") →
        BankingSystem.login [⟨"4000000234567891", "1234", 0⟩]
          "4000000234567891" "1234" = .failure "Wrong card number or PIN!")) :=
  ⟨List.pairwise_singleton _ _,
    C6_login_contract [⟨"4000000234567891", "1234", 0⟩] "4000000234567891" "1234"
      (List.pairwise_singleton _ _)⟩

/-! ## Claim theorems: balance invariant and session closure -/

/-- C2 counterexample: starting from two freshly created accounts (balance
0), a deposit of 200 followed by a completed transfer of amount -50 leaves
the receiver's persisted balance at -50 — a negative balance after a
completed operation, because the amount guard `amount <= balance` accepts
negative amounts. -/
theorem C2_nonneg_counterexample :
    menu_run [.addIncome 200, .doTransfer "4000000000000002" (-50)]
        ⟨"4000000234567891", "1234", 0⟩
        [⟨"4000000234567891", "1234", 0⟩, ⟨"4000000000000002", "0000", 0⟩] =
      some (⟨"4000000234567891", "1234", 250⟩,
        [⟨"4000000234567891", "1234", 250⟩, ⟨"4000000000000002", "0000", -50⟩]) ∧
    ∃ c ∈ ([⟨"4000000234567891", "1234", 250⟩,
        ⟨"4000000000000002", "0000", -50⟩] : Store), c.balance < 0 := by
  constructor
  · decide
  · decide

lemma transfer_store_invariant (store : Store) (sender receiver : String)
    (amount cached : Int) (hne : receiver ≠ sender)
    (hpos : ∀ c ∈ store, 0 ≤ c.balance)
    (hsync : ∀ c ∈ store, c.number = sender → c.balance = cached)
    (hamt : 0 ≤ amount) (hle : amount ≤ cached) :
    ∀ c ∈ database.add_income (database.add_income store sender (-amount))
        receiver amount,
      0 ≤ c.balance ∧ (c.number = sender → c.balance = cached - amount) := by
  intro c hcmem
  rcases List.mem_map.mp hcmem with ⟨c₁, hc₁, rfl⟩
  rcases List.mem_map.mp hc₁ with ⟨c₀, hc₀, rfl⟩
  by_cases hn : c₀.number = sender
  · have hb := hsync c₀ hc₀ hn
    have hgn : ¬ ({ c₀ with balance := c₀.balance + (-amount) } : Card).number =
        receiver := by
      show ¬ c₀.number = receiver
      rw [hn]
      exact fun hh => hne hh.symm
    simp only [if_pos hn, if_neg hgn]
    constructor
    · show 0 ≤ c₀.balance + (-amount)
      omega
    · intro _
      show c₀.balance + (-amount) = cached - amount
      omega
  · simp only [if_neg hn]
    by_cases hr : c₀.number = receiver
    · simp only [if_pos hr]
      constructor
      · show 0 ≤ c₀.balance + amount
        have hb := hpos c₀ hc₀
        omega
      · intro hcs
        exact absurd hcs hn
    · simp only [if_neg hr]
      exact ⟨hpos c₀ hc₀, fun hcs => absurd hcs hn⟩

lemma menu_run_nonneg (ops : List MenuAction) :
    ∀ (acct : Account) (store : Store),
      (∀ op ∈ ops, nonNegSessionOp op = true) →
      (∀ c ∈ store, 0 ≤ c.balance) →
      (∀ c ∈ store, c.number = acct.number → c.balance = acct.balance) →
      0 ≤ acct.balance →
      ∀ acct₁ store₁, menu_run ops acct store = some (acct₁, store₁) →
        (∀ c ∈ store₁, 0 ≤ c.balance) ∧
        (∀ c ∈ store₁, c.number = acct₁.number → c.balance = acct₁.balance) ∧
        0 ≤ acct₁.balance := by
  induction ops with
  | nil =>
      intro acct store _ hpos hsync hacct acct₁ store₁ hrun
      simp only [menu_run, Option.some.injEq, Prod.mk.injEq] at hrun
      rcases hrun with ⟨h1, h2⟩
      subst h1
      subst h2
      exact ⟨hpos, hsync, hacct⟩
  | cons op rest ih =>
      intro acct store hops hpos hsync hacct acct₁ store₁ hrun
      have hop := hops op (by simp)
      have hrest : ∀ x ∈ rest, nonNegSessionOp x = true :=
        fun x hx => hops x (by simp [hx])
      cases op with
      | exitSystem => simp [nonNegSessionOp] at hop
      | showBalance => simp [nonNegSessionOp] at hop
      | closeAccount => simp [nonNegSessionOp] at hop
      | logout => simp [nonNegSessionOp] at hop
      | addIncome income =>
          have hinc : (0 : Int) ≤ income := by
            simpa [nonNegSessionOp] using hop
          rw [menu_run] at hrun
          simp only [menu_step, Account.add_income] at hrun
          refine ih _ _ hrest ?_ ?_ ?_ acct₁ store₁ hrun
          · intro c hcmem
            rcases List.mem_map.mp hcmem with ⟨c₀, hc₀, rfl⟩
            by_cases hn : c₀.number = acct.number
            · simp only [if_pos hn]
              have hb := hpos c₀ hc₀
              show 0 ≤ c₀.balance + income
              omega
            · simp only [if_neg hn]
              exact hpos c₀ hc₀
          · intro c hcmem hnum
            rcases List.mem_map.mp hcmem with ⟨c₀, hc₀, rfl⟩
            by_cases hn : c₀.number = acct.number
            · simp only [if_pos hn] at hnum ⊢
              have hb := hsync c₀ hc₀ hn
              show c₀.balance + income = acct.balance + income
              omega
            · simp only [if_neg hn] at hnum ⊢
              exact absurd hnum hn
          · show 0 ≤ acct.balance + income
            omega
      | doTransfer receiver amount =>
          have hamt : (0 : Int) ≤ amount := by
            simpa [nonNegSessionOp] using hop
          rw [menu_run] at hrun
          rcases htr : acct.transfer_money store receiver amount with _ | ⟨res, acct₂, store₂⟩
          · simp only [menu_step, htr] at hrun
            exact absurd hrun (by simp)
          · simp only [menu_step, htr] at hrun
            rcases transfer_money_spec acct store receiver amount res acct₂ store₂ htr with
              ⟨_, ha, hs⟩ | ⟨_, hrecv, hamount, ha, hs⟩
            · subst ha
              subst hs
              exact ih _ _ hrest hpos hsync hacct acct₁ store₁ hrun
            · subst ha
              subst hs
              have hinv := transfer_store_invariant store acct.number receiver amount
                acct.balance hrecv hpos hsync hamt hamount
              refine ih _ _ hrest ?_ ?_ ?_ acct₁ store₁ hrun
              · exact fun c hc => (hinv c hc).1
              · intro c hc hnum
                exact (hinv c hc).2 hnum
              · show 0 ≤ acct.balance - amount
                omega

/-- C2 amended: starting from account creation with balance 0, after every
completed sequence of deposits with non-negative income and transfers with
non-negative amounts, every persisted balance is non-negative. (The
original claim fails for transfers with negative amounts, which the amount
guard accepts and which drive the receiver's balance negative.) -/
theorem C2_balances_nonneg (number pin : String) (store₀ : Store)
    (ops : List MenuAction)
    (hops : ∀ op ∈ ops, nonNegSessionOp op = true)
    (hpos : ∀ c ∈ store₀, (0 : Int) ≤ c.balance)
    (hnew : ∀ c ∈ store₀, c.number = number → c.balance = 0)
    (acct₁ : Account) (store₁ : Store)
    (hrun : menu_run ops ⟨number, pin, 0⟩ store₀ = some (acct₁, store₁)) :
    ∀ c ∈ store₁, 0 ≤ c.balance :=
  (menu_run_nonneg ops ⟨number, pin, 0⟩ store₀ hops hpos hnew (le_refl 0)
    acct₁ store₁ hrun).1

/-- Witness for the amended C2: a deposit of 100 then a transfer of 50
leaves both persisted balances at 50, non-negative. -/
theorem C2_balances_nonneg_witness :
    ((∀ op ∈ [MenuAction.addIncome 100,
        MenuAction.doTransfer "4000000000000002" 50], nonNegSessionOp op = true) ∧
      (∀ c ∈ ([⟨"4000000234567891", "1234", 0⟩,
        ⟨"4000000000000002", "0000", 0⟩] : Store), (0 : Int) ≤ c.balance) ∧
      menu_run [MenuAction.addIncome 100, MenuAction.doTransfer "4000000000000002" 50]
        ⟨"4000000234567891", "1234", 0⟩
        [⟨"4000000234567891", "1234", 0⟩, ⟨"4000000000000002", "0000", 0⟩] =
        some (⟨"4000000234567891", "1234", 50⟩,
          [⟨"4000000234567891", "1234", 50⟩, ⟨"4000000000000002", "0000", 50⟩])) ∧
    ∀ c ∈ ([⟨"4000000234567891", "1234", 50⟩,
        ⟨"4000000000000002", "0000", 50⟩] : Store), 0 ≤ c.balance :=
  ⟨⟨by decide, by decide, by decide⟩,
    C2_balances_nonneg "4000000234567891" "1234"
      [⟨"4000000234567891", "1234", 0⟩, ⟨"4000000000000002", "0000", 0⟩]
      [MenuAction.addIncome 100, MenuAction.doTransfer "4000000000000002" 50]
      (by decide) (by decide) (by decide)
      ⟨"4000000234567891", "1234", 50⟩
      [⟨"4000000234567891", "1234", 50⟩, ⟨"4000000000000002", "0000", 50⟩]
      (by decide)⟩

/-- C7: the session does not terminate after account closure — the close
action returns the continue flag `true` (no `break` after
`delete_account()` in the menu), and a subsequent deposit action is still
executed against the deleted identity: the cached balance moves to 100
while the store no longer holds the account's row. This contradicts the
claimed session termination. -/
theorem C7_session_continues_after_closure :
    menu_step ⟨"4000000234567891", "1234", 0⟩
        [⟨"4000000234567891", "1234", 0⟩] .closeAccount =
      some (true, ⟨"4000000234567891", "1234", 0⟩, []) ∧
    menu_run [.closeAccount, .addIncome 100] ⟨"4000000234567891", "1234", 0⟩
        [⟨"4000000234567891", "1234", 0⟩] =
      some (⟨"4000000234567891", "1234", 100⟩, []) := by
  constructor
  · decide
  · decide
